import Mathlib

set_option maxRecDepth 8000

/-
Verification development for the schema-driven API client in
src/DZ11/legal_api.py (class LegalAPI).

The Python code is shallowly embedded: every definition below mirrors a
specific method of the source, with dictionaries modelled as association
lists (insertion order preserved, as in Python 3.7+ dicts), `None` as
Option, raised LegalAPIError values as the error side of Except, and the
network as an explicit map from attempt number to the transport outcome
observed on that attempt.  JSON values are kept abstract as a type
parameter J, since the client never inspects their structure.
-/

deriving instance DecidableEq for Except

namespace LegalAPI

/-- Left-to-right, non-overlapping replacement of a pattern in a character
list, structurally recursive so that proofs can evaluate it.  The Nat
argument counts pattern characters still to skip after a match.  For a
non-empty pattern this is exactly Python's str.replace (and Lean's
String.replace); the source only ever replaces non-empty patterns. -/
def replaceAux (pat rep : List Char) : List Char → Nat → List Char
  | [], _ => []
  | _ :: rest, skip + 1 => replaceAux pat rep rest skip
  | c :: rest, 0 =>
    if pat.isPrefixOf (c :: rest) then
      rep ++ replaceAux pat rep rest (pat.length - 1)
    else c :: replaceAux pat rep rest 0

/-- Python str.replace(pat, rep) on strings (pat non-empty wherever the
source uses it). -/
def replaceStr (s pat rep : String) : String :=
  String.mk (replaceAux pat.toList rep.toList s.toList 0)

/-- Python str.lower(), character by character (structural, so proofs can
evaluate it; same as String.toLower). -/
def toLowerStr (s : String) : String :=
  String.mk (s.toList.map Char.toLower)

/-- Python str.upper(), character by character (same as String.toUpper). -/
def toUpperStr (s : String) : String :=
  String.mk (s.toList.map Char.toUpper)

/-- Python s[:n], slicing by code points (same as String.take). -/
def takeStr (s : String) (n : Nat) : String :=
  String.mk (s.toList.take n)

/-- The Operation dataclass of legal_api.py (method, path template,
operationId). -/
structure Operation where
  method : String
  path : String
  operation_id : String
deriving DecidableEq, Repr

/-- Substring test: Python's `needle in hay` on strings, i.e. contiguous
substring containment, decided on the underlying character lists. -/
def containsSub (hay needle : String) : Bool :=
  decide (needle.toList <:+: hay.toList)

/-- UTF-8 byte sequence of a character, as produced when Python percent-
encodes a non-ASCII character. -/
def utf8Bytes (c : Char) : List Nat :=
  let n := c.toNat
  if n < 0x80 then [n]
  else if n < 0x800 then [0xC0 + n / 0x40, 0x80 + n % 0x40]
  else if n < 0x10000 then
    [0xE0 + n / 0x1000, 0x80 + (n / 0x40) % 0x40, 0x80 + n % 0x40]
  else
    [0xF0 + n / 0x40000, 0x80 + (n / 0x1000) % 0x40,
     0x80 + (n / 0x40) % 0x40, 0x80 + n % 0x40]

/-- Uppercase hexadecimal digit, as used by urllib's percent-encoding. -/
def hexDigit (n : Nat) : Char :=
  if n < 10 then Char.ofNat (48 + n) else Char.ofNat (55 + n)

/-- One percent-encoded byte, e.g. 32 becomes "%20". -/
def percentByte (b : Nat) : String :=
  String.mk ['%', hexDigit (b / 16), hexDigit (b % 16)]

/-- Characters urllib.parse.quote never encodes (ASCII letters, digits,
and "_.-~"). -/
def isUnreserved (c : Char) : Bool :=
  c.isAlpha || c.isDigit || c == '-' || c == '_' || c == '.' || c == '~'

/-- Percent-encoding of one character (kept verbatim when unreserved). -/
def quoteChar (c : Char) : String :=
  if isUnreserved c then String.singleton c
  else String.join ((utf8Bytes c).map percentByte)

/-- urllib.parse.quote with safe="", as called by requests.utils.quote in
LegalAPI._build_url. -/
def quote (s : String) : String :=
  String.join (s.toList.map quoteChar)

/-- urllib.parse.quote_plus: like quote with safe="" but a space becomes
"+"; used by urlencode for query strings. -/
def quotePlus (s : String) : String :=
  String.join (s.toList.map (fun c => if c == ' ' then "+" else quoteChar c))

/-- urllib.parse.urlencode over an ordered mapping of string values
(doseq=True coincides with the plain encoding for scalar values). -/
def urlencode (query : List (String × String)) : String :=
  String.intercalate "&" (query.map (fun kv => quotePlus kv.1 ++ "=" ++ quotePlus kv.2))

/-- LegalAPI._build_url: url = base_url + path_tpl, then for each supplied
path parameter (k, v), replace every occurrence of "{" + k + "}" with the
percent-encoded value.  There is no check that every placeholder of the
template was substituted. -/
def buildUrl (base_url : String) (path_tpl : String)
    (path_params : List (String × String)) : String :=
  path_params.foldl
    (fun url kv => replaceStr url ("\x7b" ++ kv.1 ++ "\x7d") (quote kv.2))
    (base_url ++ path_tpl)

/-- Line 304 of legal_api.py: `url if not query else url + "?" + urlencode(query)`;
an absent or empty query dict leaves the url untouched. -/
def urlWithQuery (url : String) (query : List (String × String)) : String :=
  if query.isEmpty then url else url ++ "?" ++ urlencode query

/-- Python dict insert: replace the value in place when the key is already
present, otherwise append at the end (insertion order preserved). -/
def insertReplace {β : Type} (l : List (String × β)) (k : String) (v : β) :
    List (String × β) :=
  match l with
  | [] => [(k, v)]
  | (k', v') :: rest =>
    if k' = k then (k, v) :: rest else (k', v') :: insertReplace rest k v

/-- dict(self._session.headers) followed by .update(headers): overrides win
on conflict, new keys are appended. -/
def mergeHeaders (base overrides : List (String × String)) :
    List (String × String) :=
  overrides.foldl (fun acc kv => insertReplace acc kv.1 kv.2) base

/-- Line 297: send_json = (body is not None) and not files.  An absent or
empty files dict counts as falsy, exactly as in Python. -/
def sendJson {J : Type} (body : Option J) (files : List (String × String)) : Bool :=
  body.isSome && files.isEmpty

/-- Line 306: the json= argument of session.request. -/
def jsonArg {J : Type} (body : Option J) (files : List (String × String)) : Option J :=
  if sendJson body files then body else none

/-- Line 307: the data= argument of session.request
(`None if send_json else (body if body is not None else None)`). -/
def dataArg {J : Type} (body : Option J) (files : List (String × String)) : Option J :=
  if sendJson body files then none else body

/-- The fully assembled outgoing request of LegalAPI._request (lines
302-310): method uppercased, url with query string, body either as the
JSON payload or as form data, file attachments, merged headers. -/
structure RequestSpec (J : Type) where
  method : String
  url : String
  jsonBody : Option J
  dataBody : Option J
  files : List (String × String)
  headers : List (String × String)
deriving DecidableEq

/-- Assembles the request exactly as the session.request call of
LegalAPI._request does. -/
def buildRequest {J : Type} (sessionHeaders : List (String × String))
    (method url : String) (query : List (String × String)) (body : Option J)
    (files : List (String × String)) (headers : List (String × String)) :
    RequestSpec J :=
  { method := toUpperStr method
    url := urlWithQuery url query
    jsonBody := jsonArg body files
    dataBody := dataArg body files
    files := files
    headers := mergeHeaders sessionHeaders headers }

/-- LegalAPI.call: look the operationId up in the operations index; when
absent raise LegalAPIError("Unknown operationId: ...") before any request
is built; when present build the url and hand over to _request.  The
embedding returns the request that _request would transmit, so an error
value means no network request was issued. -/
def call {J : Type} (sessionHeaders : List (String × String))
    (base_url : String) (operations : List (String × Operation))
    (operation_id : String) (path_params query : List (String × String))
    (body : Option J) (files headers : List (String × String)) :
    Except String (RequestSpec J) :=
  match operations.lookup operation_id with
  | none => .error ("Unknown operationId: " ++ operation_id)
  | some op =>
    .ok (buildRequest sessionHeaders op.method
      (buildUrl base_url op.path path_params) query body files headers)

/-- The haystack of LegalAPI._find_op and list_efrsb_methods:
`f"{op.operation_id} {op.path}".lower()`. -/
def hay (op : Operation) : String :=
  toLowerStr (op.operation_id ++ " " ++ op.path)

/-- `all(k.lower() in hay for k in keywords if k)`: every non-empty
keyword, lowercased, occurs in the haystack. -/
def matchesAll (keywords : List String) (op : Operation) : Bool :=
  (keywords.filter (fun k => !k.isEmpty)).all
    (fun k => containsSub (hay op) (toLowerStr k))

/-- `any(k.lower() in hay for k in keywords if k)`: some non-empty
keyword, lowercased, occurs in the haystack. -/
def matchesAny (keywords : List String) (op : Operation) : Bool :=
  (keywords.filter (fun k => !k.isEmpty)).any
    (fun k => containsSub (hay op) (toLowerStr k))

/-- The sort order of line 254, `key=lambda o: (len(o.operation_id),
o.operation_id)`: lexicographic on (length of id, id). -/
def keyRel (a b : Operation) : Prop :=
  a.operation_id.length < b.operation_id.length ∨
  (a.operation_id.length = b.operation_id.length ∧ a.operation_id ≤ b.operation_id)

instance : DecidableRel keyRel := fun a b =>
  inferInstanceAs (Decidable (a.operation_id.length < b.operation_id.length ∨
    (a.operation_id.length = b.operation_id.length ∧ a.operation_id ≤ b.operation_id)))

/-- The fixed hint-word tuple of LegalAPI.list_efrsb_methods. -/
def efrsbHintWords : List String :=
  ["efrsb", "bankrupt", "bankruptcy", "debtor", "notice", "case", "insolv"]

/-- LegalAPI.list_efrsb_methods: the operations (in catalog iteration
order) whose id or path contains one of the hint words. -/
def listEfrsbMethods (ops : List Operation) : List Operation :=
  ops.filter (fun op => efrsbHintWords.any (fun k => containsSub (hay op) k))

/-- The diagnostic message raised when neither pass of _find_op matched
(lines 264-270). -/
def findOpFailureMsg (ops : List Operation) (keywords : List String) : String :=
  let tips := String.intercalate "\n"
    ((listEfrsbMethods ops).map (fun op =>
      "- " ++ op.operation_id ++ "  [" ++ op.method ++ " " ++ op.path ++ "]"))
  let msg := "Не нашёл подходящий метод ЕФРСБ по ключевым словам: " ++
    String.intercalate ", " keywords
  if tips.isEmpty then
    msg ++ "\nВ схеме не нашлось операций, похожих на ЕФРСБ. Проверьте /docs."
  else
    msg ++ "\nДоступные в схеме EFRSB-подобные операции:\n" ++ tips

/-- LegalAPI._find_op: strict AND pass over all operations (catalog
iteration order), sorted by (len(operation_id), operation_id) when
non-empty; otherwise the first operation matching ANY keyword; otherwise
the diagnostic error. -/
def findOp (ops : List Operation) (keywords : List String) :
    Except String Operation :=
  let candidates := ops.filter (matchesAll keywords)
  match List.insertionSort keyRel candidates with
  | best :: _ => .ok best
  | [] =>
    match ops.find? (matchesAny keywords) with
    | some op => .ok op
    | none => .error (findOpFailureMsg ops keywords)

/-- LegalAPI.list_endpoints: `sorted(self._operations.keys())`. -/
def listEndpoints (operations : List (String × Operation)) : List String :=
  List.insertionSort (· ≤ ·) (operations.map Prod.fst)

/-- What the transport produced on one attempt: an HTTP response (status,
Content-Type header, text body, and the body's JSON decoding when it has
one), or a requests.ConnectionError / requests.Timeout carrying message e. -/
inductive Attempt (J : Type) where
  | response (status : Nat) (contentType : String) (text : String) (json : Option J)
  | netError (e : String)
deriving DecidableEq

/-- A successful _request outcome: the decoded JSON value when the
response declared application/json, the raw bytes otherwise. -/
inductive Payload (J : Type) where
  | jsonVal (j : J)
  | bytes (b : String)
deriving DecidableEq

/-- LegalAPI._safe_json: the decoded JSON payload, or the fallback dict
containing the raw text when decoding fails. -/
inductive SafePayload (J : Type) where
  | json (j : J)
  | textWrap (text : String)
deriving DecidableEq

/-- The failures LegalAPI._request can raise: the LegalAPIError of line
323 (message, status, _safe_json payload); the LegalAPIError of line 329
for network errors; the requests JSON decode failure propagating out of
`resp.json()` on line 315; and the LegalAPIError of line 332 ("Request
failed after retries: ..."). -/
inductive ReqError (J : Type) where
  | httpError (msg : String) (status : Nat) (payload : SafePayload J)
  | networkError (msg : String)
  | jsonDecodeError
  | requestFailedAfterRetries (last_err : Option String)
deriving DecidableEq

/-- _safe_json of a response with raw text and optional JSON decoding. -/
def safeJson {J : Type} (text : String) (json : Option J) : SafePayload J :=
  match json with
  | some j => .json j
  | none => .textWrap text

/-- Line 319: `f"HTTP {resp.status_code} at {url}: {resp.text[:500]}"`. -/
def httpMsg (url : String) (status : Nat) (text : String) : String :=
  "HTTP " ++ toString status ++ " at " ++ url ++ ": " ++ takeStr text 500

/-- Lines 311-316: 2xx handling — decode JSON when the Content-Type
declares application/json (raising when the body does not decode),
otherwise return the raw bytes. -/
def classify2xx {J : Type} (contentType text : String) (json : Option J) :
    Except (ReqError J) (Payload J) :=
  if containsSub contentType "application/json" then
    match json with
    | some j => .ok (.jsonVal j)
    | none => .error .jsonDecodeError
  else .ok (.bytes text)

/-- The retry loop of LegalAPI._request (lines 299-332), one constructor
case per source branch, over the remaining attempt numbers.  `server`
maps an attempt number to what the transport does on that attempt.
Returns how many attempts were actually made together with the final
outcome; an empty attempt list reaches line 332. -/
def requestLoop {J : Type} (retries : Nat) (url : String)
    (server : Nat → Attempt J) :
    List Nat → Option String → Nat × Except (ReqError J) (Payload J)
  | [], last_err => (0, .error (.requestFailedAfterRetries last_err))
  | attempt :: rest, last_err =>
    match server attempt with
    | .response status contentType text json =>
      if 200 ≤ status ∧ status < 300 then
        (1, classify2xx contentType text json)
      else if 500 ≤ status ∧ status < 600 ∧ attempt ≤ retries then
        let r := requestLoop retries url server rest last_err
        (r.1 + 1, r.2)
      else
        (1, .error (.httpError (httpMsg url status text) status (safeJson text json)))
    | .netError e =>
      if attempt ≤ retries then
        let r := requestLoop retries url server rest (some e)
        (r.1 + 1, r.2)
      else
        (1, .error (.networkError ("Network error at " ++ url ++ ": " ++ e)))

/-- The network part of LegalAPI._request: `for attempt in
range(1, self.retries + 2)` with last_err initially None. -/
def request {J : Type} (retries : Nat) (url : String)
    (server : Nat → Attempt J) : Nat × Except (ReqError J) (Payload J) :=
  requestLoop retries url server (List.range' 1 (retries + 1)) none

/-- The outcome of one `self._session.get` in _load_openapi_schema: a
raised transport exception, or a response with status, text and the
body's JSON decoding when it has one. -/
inductive Fetch (J : Type) where
  | exc (e : String)
  | resp (status : Nat) (text : String) (json : Option J)
deriving DecidableEq

/-- What one of the two try-bodies of _load_openapi_schema does: return a
schema, raise an exception (whose message is carried), or fall through to
the next step. -/
inductive TryOut (J : Type) where
  | ret (j : J)
  | raised (e : String)
  | fallthrough
deriving DecidableEq

/-- Lines 340-345: try the JSON endpoint; a 200 with decodable body
returns, a 200 with undecodable body raises from `r.json()`, a non-200
falls through, a transport error raises. -/
def jsonTryBody {J : Type} (primary : Fetch J) : TryOut J :=
  match primary with
  | .exc e => .raised e
  | .resp status _ json =>
    if status = 200 then
      match json with
      | some j => .ret j
      | none => .raised "JSONDecodeError"
    else .fallthrough

/-- Lines 348-359: try the YAML endpoint; a 200 whose text json.loads can
decode returns, a 200 whose text cannot be decoded raises the
LegalAPIError naming the unsupported format, a non-200 falls through, a
transport error raises. -/
def yamlTryBody {J : Type} (secondary : Fetch J) : TryOut J :=
  match secondary with
  | .exc e => .raised e
  | .resp status _ json =>
    if status = 200 then
      match json with
      | some j => .ret j
      | none =>
        .raised "OpenAPI schema is YAML; install PyYAML or use JSON schema endpoint."
    else .fallthrough

/-- The final LegalAPIError message of _load_openapi_schema (lines
361-364), naming both attempted locations. -/
def schemaUnreachableMsg (base_url : String) : String :=
  "Не удалось загрузить OpenAPI-схему по " ++ base_url ++ "/openapi.json" ++
  " или " ++ base_url ++ "/openapi.yaml" ++
  ". Проверьте доступность API/документации."

/-- LegalAPI._load_openapi_schema: each try-body sits under
`except Exception: pass`, so anything it raises — including the
LegalAPIError naming the unsupported YAML format — is swallowed, and
every non-returning outcome falls through to the final unreachable-schema
error. -/
def loadOpenapiSchema {J : Type} (base_url : String)
    (primary secondary : Fetch J) : Except String J :=
  match jsonTryBody primary with
  | .ret j => .ok j
  | _ =>
    match yamlTryBody secondary with
    | .ret j => .ok j
    | _ => .error (schemaUnreachableMsg base_url)

/-- One value of the methods dict of an OpenAPI path item: either not a
dict (skipped by line 372) or a dict with an optional operationId string
(absent or empty triggers the synthetic id). -/
inductive OpSpec where
  | notDict
  | dict (operation_id : Option String)
deriving DecidableEq

/-- Python str.strip('/'): drop leading and trailing slashes. -/
def stripSlashes (s : String) : String :=
  String.mk (((s.toList.dropWhile (· == '/')).reverse.dropWhile (· == '/')).reverse)

/-- Line 377, the synthetic operationId:
`f"{method.lower()}_{path.strip('/').replace('/', '_').replace('{', '').replace('}', '')}"`. -/
def synthOpId (method path : String) : String :=
  toLowerStr method ++ "_" ++
    (replaceStr (replaceStr (replaceStr (stripSlashes path) "/" "_") "\x7b" "") "\x7d" "")

/-- Lines 374-377: the id under which the entry is inserted — the declared
operationId when present and non-empty (`if not op_id` also catches the
empty string), the synthetic id otherwise. -/
def entryOpId (method path : String) (given : Option String) : String :=
  match given with
  | some s => if s.isEmpty then synthOpId method path else s
  | none => synthOpId method path

/-- Processing of one (method, spec) pair of one path item (lines
371-378): non-dicts are skipped, dicts are inserted under their id with
the method uppercased. -/
def buildStep (path : String) (acc : List (String × Operation))
    (ms : String × OpSpec) : List (String × Operation) :=
  match ms.2 with
  | .notDict => acc
  | .dict given =>
    let op_id := entryOpId ms.1 path given
    insertReplace acc op_id ⟨toUpperStr ms.1, path, op_id⟩

/-- LegalAPI._build_operations_index over the paths mapping of the schema
(path → method → spec, both dicts modelled as association lists in
iteration order): fold every entry into the operationId-keyed dict, then
fail with the empty-catalog LegalAPIError when nothing was found. -/
def buildOperationsIndex (paths : List (String × List (String × OpSpec))) :
    Except String (List (String × Operation)) :=
  let ops := paths.foldl (fun acc pm => pm.2.foldl (buildStep pm.1) acc) []
  if ops.isEmpty then .error "OpenAPI schema parsed, but no operations found."
  else .ok ops

/-- The ids, in insertion order, under which _build_operations_index
inserts the dict-valued entries of one path item. -/
def idsOfPath (path : String) (methods : List (String × OpSpec)) : List String :=
  methods.filterMap (fun ms =>
    match ms.2 with
    | .notDict => none
    | .dict given => some (entryOpId ms.1 path given))

/-- All ids derived from the document, in insertion order. -/
def derivedIds (paths : List (String × List (String × OpSpec))) : List String :=
  (paths.map (fun pm => idsOfPath pm.1 pm.2)).flatten

/-- Whether a methods-dict value is an operation entry (a dict). -/
def isDictSpec : OpSpec → Bool
  | .notDict => false
  | .dict _ => true

/-- The number of (path, method) operation entries of the document. -/
def opEntryCount (paths : List (String × List (String × OpSpec))) : Nat :=
  (paths.map (fun pm => (pm.2.filter (fun ms => isDictSpec ms.2)).length)).sum

/-
Theorems.  Claim-level results are named claimN_...; the lemmas before
them are shared infrastructure.
-/

instance : IsTrans Operation keyRel := by
  constructor
  intro a b c hab hbc
  rcases hab with h1 | ⟨h1, h1'⟩ <;> rcases hbc with h2 | ⟨h2, h2'⟩
  · exact Or.inl (h1.trans h2)
  · exact Or.inl (h2 ▸ h1)
  · exact Or.inl (h1 ▸ h2)
  · exact Or.inr ⟨h1.trans h2, h1'.trans h2'⟩

instance : IsTotal Operation keyRel := by
  constructor
  intro a b
  rcases Nat.lt_trichotomy a.operation_id.length b.operation_id.length with h | h | h
  · exact Or.inl (Or.inl h)
  · rcases le_total a.operation_id b.operation_id with hle | hle
    · exact Or.inl (Or.inr ⟨h, hle⟩)
    · exact Or.inr (Or.inr ⟨h.symm, hle⟩)
  · exact Or.inr (Or.inl h)

/-- The head of an insertion-sorted list is a member of the original list
and minimal for the sort relation. -/
lemma head_insertionSort_min {α : Type} (r : α → α → Prop) [DecidableRel r]
    [IsTotal α r] [IsTrans α r] (l : List α) (best : α) (rest : List α)
    (h : List.insertionSort r l = best :: rest) :
    best ∈ l ∧ ∀ x ∈ l, r best x := by
  have hperm := List.perm_insertionSort r l
  have hsorted := List.sorted_insertionSort r l
  rw [h] at hperm hsorted
  rw [List.sorted_cons] at hsorted
  refine ⟨hperm.mem_iff.mp (List.mem_cons_self _ _), ?_⟩
  intro x hx
  rcases List.mem_cons.mp (hperm.symm.mem_iff.mp hx) with heq | hrest
  · rcases IsTotal.total (r := r) best x with hr | hr
    · exact hr
    · subst heq
      exact hr
  · exact hsorted.1 x hrest

/-- The strict AND pass of _find_op: when some operation matches every
keyword, the resolver returns a minimal full match. -/
lemma findOp_strict (ops : List Operation) (keywords : List String)
    (h : ∃ op, op ∈ ops ∧ matchesAll keywords op = true) :
    ∃ best, findOp ops keywords = Except.ok best ∧ best ∈ ops ∧
      matchesAll keywords best = true ∧
      ∀ op ∈ ops, matchesAll keywords op = true → keyRel best op := by
  obtain ⟨op, hmem, hmatch⟩ := h
  have hne : ops.filter (matchesAll keywords) ≠ [] := by
    intro hnil
    have : op ∈ ops.filter (matchesAll keywords) := List.mem_filter.mpr ⟨hmem, hmatch⟩
    rw [hnil] at this
    cases this
  cases hs : List.insertionSort keyRel (ops.filter (matchesAll keywords)) with
  | nil =>
    have hperm := List.perm_insertionSort keyRel (ops.filter (matchesAll keywords))
    rw [hs] at hperm
    exact absurd hperm.nil_eq.symm hne
  | cons best rest =>
    have hmin := head_insertionSort_min keyRel _ best rest hs
    have hbest := List.mem_filter.mp hmin.1
    refine ⟨best, ?_, hbest.1, hbest.2, ?_⟩
    · simp only [findOp]
      rw [hs]
    · intro o ho hmo
      exact hmin.2 o (List.mem_filter.mpr ⟨ho, hmo⟩)

/-- List.lookup misses exactly the keys outside the association list. -/
lemma lookup_eq_none_iff {β : Type} (l : List (String × β)) (k : String) :
    l.lookup k = none ↔ k ∉ l.map Prod.fst := by
  induction l with
  | nil => simp [List.lookup]
  | cons p rest ih =>
    cases hbeq : k == p.1 with
    | true =>
      have hk : k = p.1 := by simpa using hbeq
      simp [List.lookup, hbeq, hk]
    | false =>
      have hk : ¬k = p.1 := by simpa using hbeq
      simp [List.lookup, hbeq, ih, hk]

/-- Claim C1 (counterexample): on a catalog whose only operation has path
template "/efrsb/debtors/{id}", calling it with an empty path-parameter
mapping does not fail with a missing-path-parameter error: the call
succeeds and issues a request whose URL still contains the literal
placeholder "{id}". -/
theorem claim1_counterexample :
    call (J := Unit) [] "https://legal-api.sirotinsky.com"
        [("getEFRSBDebtor", ⟨"GET", "/efrsb/debtors/\x7bid\x7d", "getEFRSBDebtor"⟩)]
        "getEFRSBDebtor" [] [] none [] []
      = Except.ok ⟨"GET", "https://legal-api.sirotinsky.com/efrsb/debtors/\x7bid\x7d",
          none, none, [], []⟩ ∧
    containsSub "https://legal-api.sirotinsky.com/efrsb/debtors/\x7bid\x7d" "\x7bid\x7d"
      = true := by
  decide

/-- Claim C1 (amended): a path placeholder with no entry in the supplied
path-parameter mapping is not an error: the call succeeds and the URL of
the issued request is base_url ++ path template, braces and all (shown
here for an empty mapping, which leaves every placeholder unresolved).  A
supplied value is substituted percent-encoded, e.g. substituting {id}
with "12345" in /efrsb/debtors/{id} yields exactly /efrsb/debtors/12345. -/
theorem claim1_amended (sessionHeaders : List (String × String))
    (base_url : String) (operations : List (String × Operation))
    (operation_id : String) (op : Operation)
    (hop : operations.lookup operation_id = some op) :
    call (J := Unit) sessionHeaders base_url operations operation_id [] [] none [] []
        = Except.ok (buildRequest sessionHeaders op.method (base_url ++ op.path)
            [] none [] []) ∧
    buildUrl "https://legal-api.sirotinsky.com" "/efrsb/debtors/\x7bid\x7d"
        [("id", "12345")]
      = "https://legal-api.sirotinsky.com/efrsb/debtors/12345" := by
  constructor
  · simp only [call, hop]
    rfl
  · decide

/-- Witness for claim1_amended at a concrete one-operation catalog. -/
theorem claim1_amended_witness :
    call (J := Unit) [] "B" [("getOp", ⟨"GET", "/r/\x7bid\x7d", "getOp"⟩)]
        "getOp" [] [] none [] []
      = Except.ok (buildRequest [] "GET" ("B" ++ "/r/\x7bid\x7d") [] none [] []) ∧
    buildUrl "https://legal-api.sirotinsky.com" "/efrsb/debtors/\x7bid\x7d"
        [("id", "12345")]
      = "https://legal-api.sirotinsky.com/efrsb/debtors/12345" :=
  claim1_amended [] "B" [("getOp", ⟨"GET", "/r/\x7bid\x7d", "getOp"⟩)] "getOp"
    ⟨"GET", "/r/\x7bid\x7d", "getOp"⟩ (by decide)

/-- Claim C3: with retries = 3, a server answering 503 on every attempt
produces exactly 4 attempts and a final failure; a server answering 503
then 200 produces exactly 2 attempts and a success; a single 404 answer
fails after exactly 1 attempt with no retry. -/
theorem claim3_retry_boundary :
    request (J := Unit) 3 "u" (fun _ => .response 503 "" "srv" none)
      = (4, Except.error (.httpError "HTTP 503 at u: srv" 503 (.textWrap "srv"))) ∧
    request (J := Unit) 3 "u"
        (fun n => if n = 1 then .response 503 "" "srv" none
          else .response 200 "" "ok" none)
      = (2, Except.ok (.bytes "ok")) ∧
    request (J := Unit) 3 "u" (fun _ => .response 404 "" "nf" none)
      = (1, Except.error (.httpError "HTTP 404 at u: nf" 404 (.textWrap "nf"))) := by
  decide

/-- Claim C4 (code bug): when the primary schema location fails (here a
500) and the secondary returns a 200 body the JSON primitive decoder
cannot decode, the YAML try-body does raise the format-unsupported
LegalAPIError — but the surrounding `except Exception: pass` swallows it,
so the loader actually fails with the schema-unreachable classification
naming both locations, contradicting the documented classification. -/
theorem claim4_schema_format_swallowed :
    yamlTryBody (J := Unit) (.resp 200 "openapi: 3.0.2" none)
      = .raised "OpenAPI schema is YAML; install PyYAML or use JSON schema endpoint." ∧
    loadOpenapiSchema (J := Unit) "https://legal-api.sirotinsky.com"
        (.resp 500 "" none) (.resp 200 "openapi: 3.0.2" none)
      = Except.error (schemaUnreachableMsg "https://legal-api.sirotinsky.com") ∧
    loadOpenapiSchema (J := Unit) "https://legal-api.sirotinsky.com"
        (.resp 500 "" none) (.resp 200 "openapi: 3.0.2" none)
      ≠ Except.error
          "OpenAPI schema is YAML; install PyYAML or use JSON schema endpoint." := by
  decide

/-- Claim C5 (counterexample): with file attachments present, a structured
body supplied alongside them is not ignored for encoding purposes — it is
passed as the data= argument of the request (multipart form fields), so
the issued request differs from the one issued without the body. -/
theorem claim5_counterexample :
    buildRequest (J := Unit) [] "POST" "u" [] (some ()) [("file", "bytes")] []
      ≠ buildRequest (J := Unit) [] "POST" "u" [] none [("file", "bytes")] [] ∧
    (buildRequest (J := Unit) [] "POST" "u" [] (some ()) [("file", "bytes")] []).dataBody
      = some () := by
  decide

/-- Claim C5 (amended): when file attachments are present the structured
body is not serialized as the JSON payload but is forwarded as form data
(the data= argument) alongside the files; when files are absent the body
is the JSON payload (and the data= argument is empty), and an absent body
yields no payload at all. -/
theorem claim5_amended {J : Type} (sessionHeaders : List (String × String))
    (method url : String) (query : List (String × String)) (body : Option J)
    (files headers : List (String × String)) :
    (buildRequest sessionHeaders method url query body files headers).jsonBody
        = (if files.isEmpty then body else none) ∧
    (buildRequest sessionHeaders method url query body files headers).dataBody
        = (if files.isEmpty then none else body) := by
  cases body <;> cases files <;>
    simp [buildRequest, jsonArg, dataArg, sendJson]

/-- Claim C7: a call whose operationId is absent from the catalog fails
with the unknown-operation error and builds no request at all, while an
operationId present in the catalog resolves and the call proceeds to the
request executor with the built request. -/
theorem claim7_unknown_operation {J : Type}
    (sessionHeaders : List (String × String)) (base_url : String)
    (operations : List (String × Operation)) (operation_id : String)
    (path_params query : List (String × String)) (body : Option J)
    (files headers : List (String × String)) :
    (operation_id ∉ operations.map Prod.fst →
      call sessionHeaders base_url operations operation_id path_params query
          body files headers
        = Except.error ("Unknown operationId: " ++ operation_id)) ∧
    (operation_id ∈ operations.map Prod.fst →
      ∃ op, operations.lookup operation_id = some op ∧
        call sessionHeaders base_url operations operation_id path_params query
            body files headers
          = Except.ok (buildRequest sessionHeaders op.method
              (buildUrl base_url op.path path_params) query body files headers)) := by
  constructor
  · intro habs
    have : operations.lookup operation_id = none := (lookup_eq_none_iff _ _).mpr habs
    simp only [call, this]
  · intro hmem
    cases hlk : operations.lookup operation_id with
    | none => exact absurd ((lookup_eq_none_iff _ _).mp hlk) (not_not_intro hmem)
    | some op =>
      exact ⟨op, rfl, by simp only [call, hlk]⟩

/-- Witness for claim7_unknown_operation: a concrete catalog where the
absent id "nope" errors and the present id "searchEFRSBNotices"
resolves. -/
theorem claim7_witness :
    (("nope" : String) ∉
        ([("searchEFRSBNotices", Operation.mk "GET" "/efrsb/notices" "searchEFRSBNotices")].map
          Prod.fst) →
      call (J := Unit) [] "B"
          [("searchEFRSBNotices", ⟨"GET", "/efrsb/notices", "searchEFRSBNotices"⟩)]
          "nope" [] [] none [] []
        = Except.error ("Unknown operationId: " ++ "nope")) ∧
    (("searchEFRSBNotices" : String) ∈
        ([("searchEFRSBNotices", Operation.mk "GET" "/efrsb/notices" "searchEFRSBNotices")].map
          Prod.fst) →
      ∃ op,
        ([("searchEFRSBNotices", Operation.mk "GET" "/efrsb/notices" "searchEFRSBNotices")]).lookup
            "searchEFRSBNotices" = some op ∧
        call (J := Unit) [] "B"
            [("searchEFRSBNotices", ⟨"GET", "/efrsb/notices", "searchEFRSBNotices"⟩)]
            "searchEFRSBNotices" [] [] none [] []
          = Except.ok (buildRequest [] op.method
              (buildUrl "B" op.path []) [] none [] [])) :=
  ⟨(claim7_unknown_operation [] "B" _ "nope" [] [] none [] []).1,
   (claim7_unknown_operation [] "B" _ "searchEFRSBNotices" [] [] none [] []).2⟩

/-- Claim C6: whenever some operation's id + " " + path contains every
non-empty keyword (case-insensitively), the resolver returns an operation
matching all keywords — never one matching only some — and the returned
operation is minimal among all full matches under the
(length of id, id lexicographically) ascending order. -/
theorem claim6_strict_pass_tiebreak (ops : List Operation)
    (keywords : List String)
    (h : ∃ op, op ∈ ops ∧ matchesAll keywords op = true) :
    ∃ best, findOp ops keywords = Except.ok best ∧ best ∈ ops ∧
      matchesAll keywords best = true ∧
      ∀ op ∈ ops, matchesAll keywords op = true → keyRel best op :=
  findOp_strict ops keywords h

/-- Witness for claim6_strict_pass_tiebreak on the two-operation EFRSB
catalog of the spec's end-to-end scenario. -/
theorem claim6_witness :
    ∃ best,
      findOp [⟨"GET", "/efrsb/notices", "searchEFRSBNotices"⟩,
          ⟨"GET", "/efrsb/debtors/\x7bid\x7d", "getEFRSBDebtor"⟩]
          ["efrsb", "notice"] = Except.ok best ∧
      best ∈ [Operation.mk "GET" "/efrsb/notices" "searchEFRSBNotices",
          Operation.mk "GET" "/efrsb/debtors/\x7bid\x7d" "getEFRSBDebtor"] ∧
      matchesAll ["efrsb", "notice"] best = true ∧
      ∀ op ∈ [Operation.mk "GET" "/efrsb/notices" "searchEFRSBNotices",
          Operation.mk "GET" "/efrsb/debtors/\x7bid\x7d" "getEFRSBDebtor"],
        matchesAll ["efrsb", "notice"] op = true → keyRel best op :=
  claim6_strict_pass_tiebreak
    [⟨"GET", "/efrsb/notices", "searchEFRSBNotices"⟩,
     ⟨"GET", "/efrsb/debtors/\x7bid\x7d", "getEFRSBDebtor"⟩]
    ["efrsb", "notice"]
    ⟨⟨"GET", "/efrsb/notices", "searchEFRSBNotices"⟩, by decide⟩

/-- A keyword list whose members are all empty makes the strict pass
vacuous, so every operation is a candidate. -/
lemma matchesAll_of_all_empty (keywords : List String) (op : Operation)
    (hkw : ∀ k ∈ keywords, k = "") : matchesAll keywords op = true := by
  have hfil : keywords.filter (fun k => !k.isEmpty) = [] :=
    List.filter_eq_nil_iff.mpr (by intro k hk; rw [hkw k hk]; decide)
  simp [matchesAll, hfil]

/-- Claim C10: on a non-empty catalog, resolving with an empty keyword
list (or one whose keywords are all empty strings) never fails: the
strict pass vacuously matches every operation and the resolver returns
the operation minimal under (length of id, id lexicographically). -/
theorem claim10_empty_keywords (ops : List Operation) (keywords : List String)
    (hne : ops ≠ []) (hkw : ∀ k ∈ keywords, k = "") :
    ∃ best, findOp ops keywords = Except.ok best ∧ best ∈ ops ∧
      ∀ op ∈ ops, keyRel best op := by
  obtain ⟨op0, hop0⟩ := List.exists_mem_of_ne_nil ops hne
  obtain ⟨best, h1, h2, _, h4⟩ :=
    findOp_strict ops keywords ⟨op0, hop0, matchesAll_of_all_empty keywords op0 hkw⟩
  exact ⟨best, h1, h2, fun op hop => h4 op hop (matchesAll_of_all_empty keywords op hkw)⟩

/-- Witness for claim10_empty_keywords on a concrete two-operation
catalog and the empty keyword list. -/
theorem claim10_witness :
    ∃ best,
      findOp [⟨"GET", "/b", "bbb"⟩, ⟨"GET", "/a", "aa"⟩] [] = Except.ok best ∧
      best ∈ [Operation.mk "GET" "/b" "bbb", Operation.mk "GET" "/a" "aa"] ∧
      ∀ op ∈ [Operation.mk "GET" "/b" "bbb", Operation.mk "GET" "/a" "aa"],
        keyRel best op :=
  claim10_empty_keywords [⟨"GET", "/b", "bbb"⟩, ⟨"GET", "/a", "aa"⟩] []
    (by decide) (by simp)

/-- Claim C9: the listing operation returns the catalog's ids sorted
lexicographically ascending, and its output depends only on the multiset
of ids, not on insertion order; being a pure function it is idempotent,
and two catalogs whose key lists are permutations of each other list
identically. -/
theorem claim9_listing_sorted_stable (c₁ c₂ : List (String × Operation))
    (h : (c₁.map Prod.fst).Perm (c₂.map Prod.fst)) :
    List.Sorted (· ≤ ·) (listEndpoints c₁) ∧ listEndpoints c₁ = listEndpoints c₂ := by
  have hs1 := List.sorted_insertionSort (α := String) (· ≤ ·) (c₁.map Prod.fst)
  have hs2 := List.sorted_insertionSort (α := String) (· ≤ ·) (c₂.map Prod.fst)
  refine ⟨hs1, ?_⟩
  exact List.eq_of_perm_of_sorted
    (((List.perm_insertionSort _ _).trans h).trans (List.perm_insertionSort _ _).symm)
    hs1 hs2

/-- Witness for claim9_listing_sorted_stable on two catalogs holding the
same operations in opposite insertion orders. -/
theorem claim9_witness :
    List.Sorted (· ≤ ·)
      (listEndpoints [("b", ⟨"GET", "/b", "b"⟩), ("a", ⟨"GET", "/a", "a"⟩)]) ∧
    listEndpoints [("b", ⟨"GET", "/b", "b"⟩), ("a", ⟨"GET", "/a", "a"⟩)]
      = listEndpoints [("a", ⟨"GET", "/a", "a"⟩), ("b", ⟨"GET", "/b", "b"⟩)] :=
  claim9_listing_sorted_stable
    [("b", ⟨"GET", "/b", "b"⟩), ("a", ⟨"GET", "/a", "a"⟩)]
    [("a", ⟨"GET", "/a", "a"⟩), ("b", ⟨"GET", "/b", "b"⟩)]
    (by decide)

/-- The 2xx branch of the loop never produces the line-332 error. -/
lemma classify2xx_ne_failedAfterRetries {J : Type} (ct txt : String)
    (js : Option J) (oe : Option String) :
    classify2xx ct txt js ≠ Except.error (.requestFailedAfterRetries oe) := by
  unfold classify2xx
  split
  · cases js <;> simp
  · simp

/-- If the transport yields a connection/timeout error on every attempt
the loop still to run, the loop consumes every remaining attempt and ends
with the line-329 network error wrapping the final attempt's message. -/
lemma requestLoop_all_net {J : Type} (retries : Nat) (url : String)
    (server : Nat → Attempt J) (e : Nat → String) :
    ∀ (k a : Nat), 1 ≤ k → a + k = retries + 2 →
      (∀ n, a ≤ n → n ≤ retries + 1 → server n = .netError (e n)) →
      ∀ last_err,
        requestLoop retries url server (List.range' a k) last_err
          = (k, Except.error (.networkError
              ("Network error at " ++ url ++ ": " ++ e (retries + 1)))) := by
  intro k
  induction k with
  | zero => intro a h1; exact absurd h1 (by omega)
  | succ k ih =>
    intro a _ ha hsrv last_err
    rw [List.range'_succ]
    simp only [requestLoop]
    rw [hsrv a le_rfl (by omega)]
    by_cases h2 : a ≤ retries
    · have hk : 1 ≤ k := by omega
      simp only [if_pos h2]
      rw [ih (a + 1) hk (by omega) (fun n hn hn2 => hsrv n (by omega) hn2) (some (e a))]
    · have ha1 : a = retries + 1 := by omega
      have hk0 : k = 0 := by omega
      subst ha1 hk0
      simp only [if_neg h2]

/-- If the server answers with a 5xx status on every attempt the loop
still to run, the loop consumes every remaining attempt and ends with the
line-323 HTTP error built from the final attempt's response. -/
lemma requestLoop_all_5xx {J : Type} (retries : Nat) (url : String)
    (server : Nat → Attempt J) (st : Nat → Nat) (ct txt : Nat → String)
    (js : Nat → Option J)
    (hst : ∀ n, 1 ≤ n → n ≤ retries + 1 → 500 ≤ st n ∧ st n < 600) :
    ∀ (k a : Nat), 1 ≤ k → 1 ≤ a → a + k = retries + 2 →
      (∀ n, a ≤ n → n ≤ retries + 1 →
        server n = .response (st n) (ct n) (txt n) (js n)) →
      ∀ last_err,
        requestLoop retries url server (List.range' a k) last_err
          = (k, Except.error (.httpError
              (httpMsg url (st (retries + 1)) (txt (retries + 1)))
              (st (retries + 1))
              (safeJson (txt (retries + 1)) (js (retries + 1))))) := by
  intro k
  induction k with
  | zero => intro a h1; exact absurd h1 (by omega)
  | succ k ih =>
    intro a _ ha1 ha hsrv last_err
    have hbounds := hst a ha1 (by omega)
    rw [List.range'_succ]
    simp only [requestLoop]
    rw [hsrv a le_rfl (by omega)]
    by_cases h2 : a ≤ retries
    · have hk : 1 ≤ k := by omega
      have hcond : 500 ≤ st a ∧ st a < 600 ∧ a ≤ retries :=
        ⟨hbounds.1, hbounds.2, h2⟩
      simp only [if_neg (by omega : ¬(200 ≤ st a ∧ st a < 300)), if_pos hcond]
      rw [ih (a + 1) hk (by omega) (by omega)
        (fun n hn hn2 => hsrv n (by omega) hn2) last_err]
    · have ha2 : a = retries + 1 := by omega
      have hk0 : k = 0 := by omega
      subst ha2 hk0
      simp only [if_neg (by omega : ¬(200 ≤ st (retries + 1) ∧ st (retries + 1) < 300)),
        if_neg (by omega : ¬(500 ≤ st (retries + 1) ∧ st (retries + 1) < 600 ∧
          retries + 1 ≤ retries))]

/-- The fall-through of line 332 ("Request failed after retries") is
unreachable: on the final attempt every branch of the loop body returns
or raises, so the loop never runs out of attempts. -/
lemma requestLoop_ne_failedAfterRetries {J : Type} (retries : Nat)
    (url : String) (server : Nat → Attempt J) :
    ∀ (k a : Nat), 1 ≤ k → a + k = retries + 2 →
      ∀ (last_err oe : Option String),
        (requestLoop retries url server (List.range' a k) last_err).2
          ≠ Except.error (.requestFailedAfterRetries oe) := by
  intro k
  induction k with
  | zero => intro a h1; exact absurd h1 (by omega)
  | succ k ih =>
    intro a _ ha last_err oe
    rw [List.range'_succ]
    simp only [requestLoop]
    cases hsv : server a with
    | response status ct txt js =>
      by_cases h2xx : 200 ≤ status ∧ status < 300
      · simp only [if_pos h2xx]
        exact classify2xx_ne_failedAfterRetries ct txt js oe
      · by_cases hretry : 500 ≤ status ∧ status < 600 ∧ a ≤ retries
        · simp only [if_neg h2xx, if_pos hretry]
          have hk : 1 ≤ k := by omega
          simpa using ih (a + 1) hk (by omega) last_err oe
        · simp only [if_neg h2xx, if_neg hretry]
          simp
    | netError e =>
      by_cases hretry : a ≤ retries
      · simp only [if_pos hretry]
        have hk : 1 ≤ k := by omega
        simpa using ih (a + 1) hk (by omega) (some e) oe
      · simp only [if_neg hretry]
        simp

/-- Claim C2 (counterexample): after exhausting all retries on a
transport error, the surfaced error is exactly the same LegalAPIError as
the one raised on a non-retried first-attempt failure (retries = 0): no
indication that retries were exhausted distinguishes them. -/
theorem claim2_counterexample :
    (request (J := Unit) 1 "u" (fun _ => .netError "boom")).2
      = (request (J := Unit) 0 "u" (fun _ => .netError "boom")).2 ∧
    (request (J := Unit) 1 "u" (fun _ => .netError "boom")).2
      = Except.error (.networkError "Network error at u: boom") := by
  decide

/-- Claim C2 (amended): when a transient failure occurs on all retries+1
attempts, the final error wraps the last attempt's detail ("Network error
at url: e" for transport errors, the HTTP-status message with _safe_json
payload for 5xx responses) but carries no retries-exhausted marker and has
the same shape as a first-attempt failure; the dedicated "Request failed
after retries" wrapper of line 332 is unreachable for every server
behaviour. -/
theorem claim2_amended {J : Type} (retries : Nat) (url : String)
    (e : Nat → String) (netServer : Nat → Attempt J)
    (hnet : ∀ n, 1 ≤ n → n ≤ retries + 1 → netServer n = .netError (e n))
    (st : Nat → Nat) (txt : Nat → String) (httpServer : Nat → Attempt J)
    (hst : ∀ n, 1 ≤ n → n ≤ retries + 1 → 500 ≤ st n ∧ st n < 600)
    (hhttp : ∀ n, 1 ≤ n → n ≤ retries + 1 →
      httpServer n = .response (st n) "" (txt n) none) :
    request retries url netServer
      = (retries + 1, Except.error (.networkError
          ("Network error at " ++ url ++ ": " ++ e (retries + 1)))) ∧
    request retries url httpServer
      = (retries + 1, Except.error (.httpError
          (httpMsg url (st (retries + 1)) (txt (retries + 1)))
          (st (retries + 1)) (.textWrap (txt (retries + 1))))) ∧
    ∀ (server : Nat → Attempt J) (oe : Option String),
      (request retries url server).2
        ≠ Except.error (.requestFailedAfterRetries oe) := by
  refine ⟨?_, ?_, ?_⟩
  · exact requestLoop_all_net retries url netServer e (retries + 1) 1
      (by omega) (by omega) (fun n hn hn2 => hnet n hn hn2) none
  · exact requestLoop_all_5xx retries url httpServer st (fun _ => "") txt
      (fun _ => none) hst (retries + 1) 1 (by omega) le_rfl (by omega)
      (fun n hn hn2 => hhttp n hn hn2) none
  · intro server oe
    exact requestLoop_ne_failedAfterRetries retries url server (retries + 1) 1
      (by omega) (by omega) none oe

/-- Witness for claim2_amended with retries = 1: two transport failures,
and separately two 503 responses, each consuming both attempts. -/
theorem claim2_witness :
    request (J := Unit) 1 "u" (fun _ => .netError "boom")
      = (2, Except.error (.networkError "Network error at u: boom")) ∧
    request (J := Unit) 1 "u" (fun _ => .response 503 "" "srv" none)
      = (2, Except.error (.httpError "HTTP 503 at u: srv" 503 (.textWrap "srv"))) ∧
    ∀ (server : Nat → Attempt Unit) (oe : Option String),
      (request 1 "u" server).2
        ≠ Except.error (.requestFailedAfterRetries oe) :=
  claim2_amended 1 "u" (fun _ => "boom") (fun _ => .netError "boom")
    (fun _ _ _ => rfl) (fun _ => 503) (fun _ => "srv")
    (fun _ => .response 503 "" "srv" none)
    (fun _ _ _ => by norm_num) (fun _ _ _ => rfl)

/-- Inserting under a fresh key appends at the end of the dict. -/
lemma insertReplace_of_not_mem {β : Type} (l : List (String × β)) (k : String)
    (v : β) (h : k ∉ l.map Prod.fst) : insertReplace l k v = l ++ [(k, v)] := by
  induction l with
  | nil => rfl
  | cons p rest ih =>
    obtain ⟨k', v'⟩ := p
    simp only [List.map_cons, List.mem_cons, not_or] at h
    have hne : ¬(k' = k) := fun he => h.1 he.symm
    simp only [insertReplace, if_neg hne]
    rw [ih h.2]
    rfl

/-- Folding the dict-valued entries of one path item over an accumulator
whose keys avoid the entry ids appends exactly those entries' keys. -/
lemma foldl_buildStep_map_fst (p : String) :
    ∀ (ms : List (String × OpSpec)) (acc : List (String × Operation)),
      (acc.map Prod.fst ++ idsOfPath p ms).Nodup →
      (ms.foldl (buildStep p) acc).map Prod.fst
        = acc.map Prod.fst ++ idsOfPath p ms := by
  intro ms
  induction ms with
  | nil =>
    intro acc _
    simp [idsOfPath]
  | cons m rest ih =>
    intro acc hnd
    obtain ⟨mth, spc⟩ := m
    cases spc with
    | notDict =>
      have hids : idsOfPath p ((mth, OpSpec.notDict) :: rest) = idsOfPath p rest := by
        simp [idsOfPath]
      rw [hids] at hnd
      rw [List.foldl_cons]
      have hstep : buildStep p acc (mth, OpSpec.notDict) = acc := rfl
      rw [hstep, hids]
      exact ih acc hnd
    | dict given =>
      have hids : idsOfPath p ((mth, OpSpec.dict given) :: rest)
          = entryOpId mth p given :: idsOfPath p rest := by
        simp [idsOfPath]
      rw [hids] at hnd
      have hknotin : entryOpId mth p given ∉ acc.map Prod.fst := by
        intro hk
        exact (List.nodup_append.mp hnd).2.2 hk (List.mem_cons_self _ _)
      have hstep : buildStep p acc (mth, OpSpec.dict given)
          = acc ++ [(entryOpId mth p given,
              ⟨toUpperStr mth, p, entryOpId mth p given⟩)] := by
        simp only [buildStep]
        exact insertReplace_of_not_mem _ _ _ hknotin
      rw [List.foldl_cons, hstep, hids]
      have hmap : (acc ++ [(entryOpId mth p given,
            Operation.mk (toUpperStr mth) p (entryOpId mth p given))]).map Prod.fst
          = acc.map Prod.fst ++ [entryOpId mth p given] := by
        simp
      rw [List.append_cons] at hnd
      have hnd2 : ((acc ++ [(entryOpId mth p given,
            Operation.mk (toUpperStr mth) p (entryOpId mth p given))]).map Prod.fst
          ++ idsOfPath p rest).Nodup := by
        rw [hmap]
        exact hnd
      rw [ih _ hnd2, hmap, List.append_assoc]
      rfl

/-- The outer fold of _build_operations_index appends, key-wise, every
derived id of the document (given that the derived ids collide neither
with the accumulator nor among themselves). -/
lemma foldl_outer_map_fst :
    ∀ (paths : List (String × List (String × OpSpec)))
      (acc : List (String × Operation)),
      (acc.map Prod.fst ++ derivedIds paths).Nodup →
      ((paths.foldl (fun a pm => pm.2.foldl (buildStep pm.1) a) acc).map Prod.fst)
        = acc.map Prod.fst ++ derivedIds paths := by
  intro paths
  induction paths with
  | nil =>
    intro acc _
    simp [derivedIds]
  | cons pm rest ih =>
    intro acc hnd
    have hd : derivedIds (pm :: rest) = idsOfPath pm.1 pm.2 ++ derivedIds rest := by
      simp [derivedIds]
    rw [hd] at hnd
    rw [List.foldl_cons, hd, ← List.append_assoc]
    rw [← List.append_assoc] at hnd
    have hin : ((pm.2.foldl (buildStep pm.1) acc).map Prod.fst)
        = acc.map Prod.fst ++ idsOfPath pm.1 pm.2 :=
      foldl_buildStep_map_fst pm.1 pm.2 acc (List.nodup_append.mp hnd).1
    have hnd2 : ((pm.2.foldl (buildStep pm.1) acc).map Prod.fst
        ++ derivedIds rest).Nodup := by
      rw [hin]
      exact hnd
    rw [ih _ hnd2, hin]

/-- The ids derived from one path item are in bijection with its
dict-valued (operation) entries. -/
lemma idsOfPath_length (p : String) (ms : List (String × OpSpec)) :
    (idsOfPath p ms).length = (ms.filter (fun x => isDictSpec x.2)).length := by
  induction ms with
  | nil => rfl
  | cons m rest ih =>
    obtain ⟨mth, spc⟩ := m
    cases spc with
    | notDict => simpa [idsOfPath, isDictSpec, List.filter_cons] using ih
    | dict given => simpa [idsOfPath, isDictSpec, List.filter_cons] using ih

/-- One derived id per (path, method) operation entry. -/
lemma derivedIds_length (paths : List (String × List (String × OpSpec))) :
    (derivedIds paths).length = opEntryCount paths := by
  unfold derivedIds opEntryCount
  rw [List.length_flatten, List.map_map]
  exact congrArg List.sum
    (List.map_congr_left (fun pm _ => idsOfPath_length pm.1 pm.2))

/-- _build_operations_index unfolded to its let-free form. -/
lemma buildOperationsIndex_eq (paths : List (String × List (String × OpSpec))) :
    buildOperationsIndex paths =
      (if (paths.foldl (fun acc pm => pm.2.foldl (buildStep pm.1) acc)
            ([] : List (String × Operation))).isEmpty
       then Except.error "OpenAPI schema parsed, but no operations found."
       else Except.ok
         (paths.foldl (fun acc pm => pm.2.foldl (buildStep pm.1) acc) [])) :=
  rfl

/-- Claim C8: on a schema document (paths and per-path methods are
Python dicts, hence key-distinct) whose derived operation ids do not
collide, the built catalog has exactly one entry per (path, method)
operation entry; a document with zero operation entries fails with the
empty-catalog error. -/
theorem claim8_catalog_size (paths : List (String × List (String × OpSpec)))
    (_hp : (paths.map Prod.fst).Nodup)
    (_hm : ∀ pm ∈ paths, (pm.2.map Prod.fst).Nodup)
    (hid : (derivedIds paths).Nodup) :
    (opEntryCount paths = 0 →
      buildOperationsIndex paths
        = Except.error "OpenAPI schema parsed, but no operations found.") ∧
    (0 < opEntryCount paths →
      ∃ ops, buildOperationsIndex paths = Except.ok ops ∧
        ops.length = opEntryCount paths) := by
  have hfst : ((paths.foldl (fun acc pm => pm.2.foldl (buildStep pm.1) acc)
        ([] : List (String × Operation))).map Prod.fst) = derivedIds paths := by
    simpa using foldl_outer_map_fst paths [] (by simpa using hid)
  have hlen : (paths.foldl (fun acc pm => pm.2.foldl (buildStep pm.1) acc)
        ([] : List (String × Operation))).length = opEntryCount paths := by
    rw [← derivedIds_length, ← hfst, List.length_map]
  constructor
  · intro h0
    have hnil : paths.foldl (fun acc pm => pm.2.foldl (buildStep pm.1) acc)
        ([] : List (String × Operation)) = [] := by
      rw [← List.length_eq_zero, hlen, h0]
    rw [buildOperationsIndex_eq, hnil]
    rfl
  · intro hpos
    have hne0 : paths.foldl (fun acc pm => pm.2.foldl (buildStep pm.1) acc)
        ([] : List (String × Operation)) ≠ [] := by
      intro h
      rw [h] at hlen
      simp only [List.length_nil] at hlen
      omega
    have hne : (paths.foldl (fun acc pm => pm.2.foldl (buildStep pm.1) acc)
        ([] : List (String × Operation))).isEmpty = false := by
      cases hfold : paths.foldl (fun acc pm => pm.2.foldl (buildStep pm.1) acc)
          ([] : List (String × Operation)) with
      | nil => exact absurd hfold hne0
      | cons x xs => rfl
    refine ⟨_, ?_, hlen⟩
    rw [buildOperationsIndex_eq, hne]
    rfl

/-- Witness for claim8_catalog_size on a concrete two-path document with
three operation entries (one of them with a synthesized id) and one
non-dict entry that is skipped. -/
theorem claim8_witness :
    (opEntryCount [("/a", [("get", OpSpec.dict none),
          ("post", OpSpec.dict (some "mkA")), ("x-skip", OpSpec.notDict)]),
        ("/b/\x7bx\x7d", [("get", OpSpec.dict (some ""))])] = 0 →
      buildOperationsIndex [("/a", [("get", OpSpec.dict none),
          ("post", OpSpec.dict (some "mkA")), ("x-skip", OpSpec.notDict)]),
        ("/b/\x7bx\x7d", [("get", OpSpec.dict (some ""))])]
        = Except.error "OpenAPI schema parsed, but no operations found.") ∧
    (0 < opEntryCount [("/a", [("get", OpSpec.dict none),
          ("post", OpSpec.dict (some "mkA")), ("x-skip", OpSpec.notDict)]),
        ("/b/\x7bx\x7d", [("get", OpSpec.dict (some ""))])] →
      ∃ ops, buildOperationsIndex [("/a", [("get", OpSpec.dict none),
          ("post", OpSpec.dict (some "mkA")), ("x-skip", OpSpec.notDict)]),
        ("/b/\x7bx\x7d", [("get", OpSpec.dict (some ""))])] = Except.ok ops ∧
        ops.length = opEntryCount [("/a", [("get", OpSpec.dict none),
          ("post", OpSpec.dict (some "mkA")), ("x-skip", OpSpec.notDict)]),
        ("/b/\x7bx\x7d", [("get", OpSpec.dict (some ""))])]) :=
  claim8_catalog_size
    [("/a", [("get", OpSpec.dict none), ("post", OpSpec.dict (some "mkA")),
        ("x-skip", OpSpec.notDict)]),
     ("/b/\x7bx\x7d", [("get", OpSpec.dict (some ""))])]
    (by decide) (by decide) (by decide)

end LegalAPI

